import Mathlib

/-!
Verification development for the FerretDB protocol-dispatch core.

The definitions below are a shallow embedding of the per-connection runner
in src/internal/clientconn/conn.go and of the storage-contract wrapper in
src/internal/backends/collection.go.  Collaborators of that code that are
not part of the sources (the wire codec, the error taxonomy, the command
registry, the proxy router, the document type) are modelled from the
specification; each such definition carries a doc comment that starts with
the words Modelled from the spec.
-/

namespace FerretDB

/-! ## Wire opcodes and header

Modelled from the spec, section 6: recognized opcodes and the fixed
four-int32 little-endian header.  Header fields are Go int32 values; they
are embedded as Int (the runner only copies and compares them, except for
the request-id counter, whose int32 wraparound is made explicit below).
-/

def opCodeReply : Int := 1
def opCodeUpdate : Int := 2001
def opCodeInsert : Int := 2002
def opCodeGetByOID : Int := 2003
def opCodeQuery : Int := 2004
def opCodeGetMore : Int := 2005
def opCodeDelete : Int := 2006
def opCodeKillCursors : Int := 2007
def opCodeCompressed : Int := 2012
def opCodeMsg : Int := 2013

/-- Modelled from the spec: the legacy opcodes that are recognized but not
routed (conn.route treats them with a fatal handler error). -/
def legacyOpCodes : List Int :=
  [opCodeReply, opCodeUpdate, opCodeInsert, opCodeGetByOID,
   opCodeGetMore, opCodeDelete, opCodeKillCursors, opCodeCompressed]

/-- Modelled from the spec: wire.MsgHeaderLen, the fixed header size. -/
def msgHeaderLen : Int := 16

/-- Modelled from the spec: wire.MsgHeader with four int32 fields. -/
structure MsgHeader where
  messageLength : Int
  requestID : Int
  responseTo : Int
  opCode : Int
deriving DecidableEq, Repr

/-- Two to the 31st, as an integer, for int32 wraparound. -/
def int32Half : Int := 2147483648

/-- Go int32 wraparound: the value of an Int when stored in an int32.
The per-connection request-id counter is an atomic.Int32, so it wraps. -/
def wrap32 (x : Int) : Int := (x + 2147483648) % 4294967296 - 2147483648

/-! ## Document model

Modelled from the spec, section 3: a document is an opaque ordered sequence
of key and typed-value pairs with a frozen mark.  Only the value types that
the dispatch core inspects are carried; doubles appear in the core only as
the exact ok values 0.0 and 1.0, so they are embedded as rationals.
-/

inductive BValue where
  | double (q : Rat)
  | str (s : String)
  | int32 (n : Int)
  | boolean (b : Bool)
  | null
deriving DecidableEq, Repr

structure Document where
  fields : List (String × BValue)
  frozen : Bool
deriving DecidableEq, Repr

/-- Modelled from the spec: the command name is the key of the first field. -/
def Document.command (d : Document) : String :=
  match d.fields with
  | [] => ""
  | (k, _) :: _ => k

/-- Modelled from the spec: field lookup by key (first match wins, as in the
ordered document model). -/
def Document.get (d : Document) (key : String) : Option BValue :=
  d.fields.lookup key

/-- Modelled from the spec: marking a document frozen.  Freezing is one-way;
there is no operation that clears the mark. -/
def Document.freeze (d : Document) : Document := { d with frozen := true }

/-! ## Message bodies

Modelled from the spec, sections 3 and 6: an OP_MSG body is a flags field
plus a sequence of sections (kind 0 one document, kind 1 a named sequence);
OP_QUERY carries a namespace and an embedded document; OP_REPLY carries
documents.  Legacy bodies are never inspected by the runner, so their
payload is just their opcode.
-/

inductive OpMsgSection where
  | kind0 (doc : Document)
  | kind1 (identifier : String) (docs : List Document)
deriving DecidableEq, Repr

structure OpMsg where
  flagBits : Nat
  sections : List OpMsgSection
deriving DecidableEq, Repr

/-- Modelled from the spec: OpMsg.Document extracts the single kind-0
section document that a well-formed (decode-validated) request carries. -/
def OpMsg.document (m : OpMsg) : Option Document :=
  m.sections.findSome? fun s =>
    match s with
    | .kind0 d => some d
    | .kind1 _ _ => none

structure OpQuery where
  fullCollectionName : String
  query : Document
deriving DecidableEq, Repr

structure OpReply where
  documents : List Document
deriving DecidableEq, Repr

inductive MsgBody where
  | msg (m : OpMsg)
  | query (q : OpQuery)
  | reply (r : OpReply)
  | other (op : Int)
deriving DecidableEq, Repr

/-! ## Encoding

Modelled from the spec: the document tree is opaque to the core but has a
known encoding (MarshalBinary).  The exact byte layout never matters to the
runner; only the length of the encoded body enters header arithmetic, so a
simple structural byte encoding stands in for BSON.
-/

def encodeNat (n : Nat) : List Nat :=
  [n % 256, n / 256 % 256, n / 65536 % 256, n / 16777216 % 256]

def encodeInt (n : Int) : List Nat :=
  (if n < 0 then 1 else 0) :: encodeNat n.natAbs

def encodeStr (s : String) : List Nat :=
  encodeNat s.length ++ (s.toList.map Char.toNat)

def BValue.encode : BValue → List Nat
  | .double q => 1 :: encodeInt q.num ++ encodeNat q.den
  | .str s => 2 :: encodeStr s
  | .int32 n => 16 :: encodeInt n
  | .boolean b => 8 :: [if b then 1 else 0]
  | .null => [10]

def encodeField (f : String × BValue) : List Nat :=
  encodeStr f.1 ++ f.2.encode

def Document.encode (d : Document) : List Nat :=
  encodeNat d.fields.length ++ (d.fields.map encodeField).flatten

def OpMsgSection.encode : OpMsgSection → List Nat
  | .kind0 d => 0 :: d.encode
  | .kind1 ident docs => 1 :: encodeStr ident ++ encodeNat docs.length ++ (docs.map Document.encode).flatten

/-- Modelled from the spec: MarshalBinary for each body variant. -/
def MsgBody.marshalBinary : MsgBody → List Nat
  | .msg m => encodeNat m.flagBits ++ (m.sections.map OpMsgSection.encode).flatten
  | .query q => encodeStr q.fullCollectionName ++ q.query.encode
  | .reply r => encodeNat r.documents.length ++ (r.documents.map Document.encode).flatten
  | .other op => encodeInt op

/-! ## Error taxonomy

Modelled from the spec, section 4.6: errors are a tagged variant
(Validation, CommandError, WriteErrors, Internal); commonerrors.ProtocolError
renders any of them into an OP_MSG error document with ok 0.0, and unknown
or internal errors become a generic InternalError.
-/

inductive HErr where
  | command (code : Int) (codeName : String) (errmsg : String)
  | writeErrors (errmsg : String)
  | validation (msg : String)
  | internal (msg : String)
deriving DecidableEq, Repr

/-- Modelled from the spec: the on-wire document of a protocol error; every
error response document has ok 0.0, and coded errors add code, codeName and
errmsg fields. -/
def errorDocument : HErr → Document
  | .command code codeName errmsg =>
      ⟨[("ok", .double 0), ("errmsg", .str errmsg),
        ("code", .int32 code), ("codeName", .str codeName)], false⟩
  | .writeErrors errmsg =>
      ⟨[("ok", .double 0), ("writeErrors", .str errmsg)], false⟩
  | .validation msg =>
      ⟨[("ok", .double 0), ("errmsg", .str msg)], false⟩
  | .internal msg =>
      ⟨[("ok", .double 0), ("errmsg", .str msg),
        ("code", .int32 1), ("codeName", .str "InternalError")], false⟩

/-- Single-quote character, used in the CommandNotFound message text. -/
def squote : String := String.singleton (Char.ofNat 39)

/-- Modelled from the spec: commonerrors.ErrCommandNotFound is code 59 with
code name CommandNotFound; conn.handleOpMsg formats the message
as: no such command: (quoted name). -/
def commandNotFound (command : String) : HErr :=
  .command 59 "CommandNotFound" ("no such command: " ++ squote ++ command ++ squote)

/-- OP_MSG response wrapping a single error document, as built by conn.run
and conn.route with SetSections of one kind-0 section. -/
def errorMsg (e : HErr) : OpMsg := ⟨0, [.kind0 (errorDocument e)]⟩

/-! ## Modes, registry, environment -/

/-- Operation modes of the runner (conn.go Mode constants). -/
inductive Mode where
  | normal
  | proxy
  | diffNormal
  | diffProxy
deriving DecidableEq, Repr

/-- Modelled from the spec: a command registry record holding an optional
handler reference (commoncommands.Commands values). -/
structure CommandRecord where
  handler : Option (OpMsg → Option OpMsg × Option HErr)

/-- Environment of one connection: its configured mode, the process-wide
command registry, the CmdQuery handler and the proxy router.  The proxy
router is total here: per the spec, proxy failures become synthesized
responses, never exceptions on the client connection. -/
structure Env where
  mode : Mode
  commands : List (String × CommandRecord)
  cmdQuery : OpQuery → Option OpReply × Option HErr
  proxyRoute : MsgHeader → MsgBody → MsgHeader × MsgBody

/-! ## Log levels

Numeric zapcore levels: Debug is minus one, Info is zero (the zero value of
zapcore.Level, which initializes diffLogLevel in conn.run), Warn is one,
Error is two.
-/

def debugLevel : Int := -1
def infoLevel : Int := 0
def warnLevel : Int := 1
def errorLevel : Int := 2

/-- The update conn.run applies to diffLogLevel: replace it when the new
level is strictly larger. -/
def bump (dll l : Int) : Int := if l > dll then l else dll

/-- conn.logResponse: the level used to log a response.  Returns none when
the Go code would panic (an OP_MSG header whose body is absent, is not an
OpMsg, or carries no kind-0 document).  A non-OP_MSG opcode always logs at
debug; for OP_MSG the level depends on the ok field and the close flag. -/
def logResponseLevel (resHeader : MsgHeader) (resBody : Option MsgBody)
    (closeConn : Bool) : Option Int :=
  if resHeader.opCode = opCodeMsg then
    match resBody with
    | some (.msg m) =>
      match m.document with
      | some doc =>
        let f : Rat :=
          match doc.get "ok" with
          | some (.double q) => q
          | _ => 0
        some (if f ≠ 1 then (if closeConn then errorLevel else warnLevel) else debugLevel)
      | none => none
    | _ => none
  else
    some debugLevel

/-! ## Observable events of the runner -/

inductive Event where
  | proxied (reqHeader : MsgHeader)
  | handled (reqHeader : MsgHeader)
  | handlerErrorLogged (label : String)
  | responseLogged (who : String) (level : Int)
  | diffLogged (level : Int) (resHeader : MsgHeader) (resBody : Option MsgBody)
      (proxyHeader : MsgHeader) (proxyBody : Option MsgBody)
  | wrote (header : MsgHeader) (body : MsgBody)
deriving DecidableEq, Repr

/-- Per-connection mutable state: the atomic request-id counter. -/
structure ConnState where
  lastRequestID : Int
deriving DecidableEq, Repr

/-- Outcomes of wire.ReadMessage, seen by the loop in conn.run: a decoded
message, a validation error (with the header that was read), a clean
zero-read, or a transport error. -/
inductive ReadEvent where
  | msg (header : MsgHeader) (body : MsgBody)
  | invalid (header : MsgHeader) (verr : String)
  | eof
  | ioError

/-- Ways the loop in conn.run terminates. -/
inductive ExitKind where
  | zeroRead
  | transport
  | panicked
  | fatal
  | pending
deriving DecidableEq, Repr

inductive StepRes where
  | cont (st : ConnState) (events : List Event)
  | stop (events : List Event) (exit : ExitKind)
deriving DecidableEq, Repr

def stepEvents : StepRes → List Event
  | .cont _ evs => evs
  | .stop evs _ => evs

/-! ## conn.route -/

/-- Result of conn.route: either a recovered panic, or the response header,
optional body, close flag, updated counter and logged handler errors. -/
inductive RouteRes where
  | panicked
  | ok (resHeader : MsgHeader) (resBody : Option MsgBody) (closeConn : Bool)
      (lastRequestID : Int) (events : List Event)
deriving DecidableEq, Repr

/-- Tail of conn.route lines 538 to 554: marshal the response body (a nil
body panics there), then fill the header with the recomputed length, the
next value of the per-connection counter and the request id of the request
being answered. -/
def routeFinish (reqHeader : MsgHeader) (lastID : Int) (resOpCode : Int) :
    Option MsgBody → RouteRes
  | none => .panicked
  | some body =>
      let b := body.marshalBinary
      let newID := wrap32 (lastID + 1)
      .ok ⟨msgHeaderLen + b.length, newID, reqHeader.requestID, resOpCode⟩
        (some body) false newID []

/-- conn.handleOpMsg: look the command up in the registry (case-sensitive);
a missing name, or a record with no handler, yields CommandNotFound. -/
def handleOpMsg (env : Env) (m : OpMsg) (command : String) :
    Option OpMsg × Option HErr :=
  match env.commands.lookup command with
  | some cmd =>
    match cmd.handler with
    | some h => h m
    | none => (none, some (commandNotFound command))
  | none => (none, some (commandNotFound command))

/-- conn.route.  For OP_MSG the response opcode is OP_MSG and a handler
error is rendered as an error document that replaces the body; for OP_QUERY
the response opcode is OP_REPLY, and a CmdQuery error hits the second
switch at the OP_REPLY case, closing the connection with the unhandled
label; every other request opcode leaves the freshly allocated response
header at opcode zero, so its error hits the default case with the
unexpected label.  A decoded OP_MSG always carries its kind-0 document
(decode validates that), so the missing-document branch is unreachable for
traffic that went through ReadMessage; it is rendered as an internal
error document here. -/
def route (env : Env) (lastID : Int) (reqHeader : MsgHeader) (reqBody : MsgBody) :
    RouteRes :=
  if reqHeader.opCode = opCodeMsg then
    match reqBody with
    | .msg m =>
      match m.document with
      | some doc =>
        match handleOpMsg env m doc.command with
        | (resMsg, none) => routeFinish reqHeader lastID opCodeMsg (resMsg.map .msg)
        | (_, some e) =>
            routeFinish reqHeader lastID opCodeMsg (some (.msg (errorMsg e)))
      | none =>
          routeFinish reqHeader lastID opCodeMsg
            (some (.msg (errorMsg (.internal "invalid OpMsg"))))
    | _ => .panicked
  else if reqHeader.opCode = opCodeQuery then
    match reqBody with
    | .query q =>
      match env.cmdQuery q with
      | (resReply, none) => routeFinish reqHeader lastID opCodeReply (resReply.map .reply)
      | (resReply, some _) =>
          .ok ⟨0, 0, 0, opCodeReply⟩ (resReply.map .reply) true lastID
            [.handlerErrorLogged "Handler error for unhandled response opcode"]
    | _ => .panicked
  else
    .ok ⟨0, 0, 0, 0⟩ none true lastID
      [.handlerErrorLogged "Handler error for unexpected response opcode"]

/-! ## conn.run -/

/-- The OP_MSG response conn.run synthesizes for a decode validation
error. -/
def validationResponse (verr : String) : OpMsg := errorMsg (.validation verr)

/-- End of one loop iteration in conn.run: write the chosen response (a nil
body panics at the no-response-to-send check), then exit fatally when the
handler asked to close the connection. -/
def writeRes (st : ConnState) (evs : List Event) (h : MsgHeader) :
    Option MsgBody → Bool → StepRes
  | none, _ => .stop evs .panicked
  | some body, closeConn =>
      if closeConn then .stop (evs ++ [.wrote h body]) .fatal
      else .cont st (evs ++ [.wrote h body])

/-- One iteration of the loop in conn.run, driven by one ReadMessage
outcome.  A validation error synthesizes an error response keyed to the
request id of the offending message and continues; other read errors exit;
a decoded message is first sent to the proxy (unless in normal mode), then
routed locally (unless in proxy mode), responses are logged, diffed in diff
modes at the accumulated level (starting from the zero value of
zapcore.Level, which is Info), and the response selected by the mode is
written. -/
def step (env : Env) (st : ConnState) : ReadEvent → StepRes
  | .eof => .stop [] .zeroRead
  | .ioError => .stop [] .transport
  | .invalid reqHeader verr =>
      let res := validationResponse verr
      let b := (MsgBody.msg res).marshalBinary
      let newID := wrap32 (st.lastRequestID + 1)
      let resHeader : MsgHeader :=
        ⟨msgHeaderLen + b.length, newID, reqHeader.requestID, reqHeader.opCode⟩
      .cont ⟨newID⟩ [.wrote resHeader (.msg res)]
  | .msg reqHeader reqBody =>
      let pr := env.proxyRoute reqHeader reqBody
      let proxyEvs : List Event :=
        if env.mode = Mode.normal then [] else [.proxied reqHeader]
      if env.mode = Mode.proxy then
        match logResponseLevel pr.1 (some pr.2) false with
        | none => .stop proxyEvs .panicked
        | some l2 =>
            .cont st (proxyEvs ++ [.responseLogged "Proxy response" l2, .wrote pr.1 pr.2])
      else
        match route env st.lastRequestID reqHeader reqBody with
        | .panicked => .stop (proxyEvs ++ [.handled reqHeader]) .panicked
        | .ok rh rb cc nl revs =>
          match logResponseLevel rh rb cc with
          | none => .stop (proxyEvs ++ [.handled reqHeader] ++ revs) .panicked
          | some l1 =>
            let evs1 := proxyEvs ++ [.handled reqHeader] ++ revs ++
              [.responseLogged "Response" l1]
            if env.mode = Mode.normal then
              writeRes ⟨nl⟩ evs1 rh rb cc
            else
              match logResponseLevel pr.1 (some pr.2) false with
              | none => .stop evs1 .panicked
              | some l2 =>
                let dll := bump (bump 0 l1) l2
                let evs2 := evs1 ++ [.responseLogged "Proxy response" l2,
                  .diffLogged dll rh rb pr.1 (some pr.2)]
                let final : MsgHeader × Option MsgBody :=
                  if env.mode = Mode.diffProxy then (pr.1, some pr.2) else (rh, rb)
                writeRes ⟨nl⟩ evs2 final.1 final.2 cc

/-- The loop in conn.run over a finite prefix of ReadMessage outcomes.  An
exhausted input list means the connection is still alive and waiting
(pending); a stop ends the run and ignores the rest. -/
def run (env : Env) (st : ConnState) : List ReadEvent → List Event × ExitKind
  | [] => ([], .pending)
  | ev :: rest =>
    match step env st ev with
    | .cont st2 evs =>
        let r := run env st2 rest
        (evs ++ r.1, r.2)
    | .stop evs ex => (evs, ex)

/-- Request ids stamped on the frames a list of events wrote, in order. -/
def writtenIds (evs : List Event) : List Int :=
  evs.filterMap fun e =>
    match e with
    | .wrote h _ => some h.requestID
    | _ => none

/-- Frames written, in order. -/
def writtenFrames (evs : List Event) : List (MsgHeader × MsgBody) :=
  evs.filterMap fun e =>
    match e with
    | .wrote h b => some (h, b)
    | _ => none

/-! ## Storage contract: collectionContract.InsertAll -/

/-- Modelled from the spec: backend error kinds relevant to InsertAll; the
allowed set for InsertAll is InsertDuplicateID plus backend errors. -/
inductive BackendError where
  | insertDuplicateID
  | backend (msg : String)
  | unexpected (msg : String)
deriving DecidableEq, Repr

structure InsertAllParams where
  docs : List Document
deriving DecidableEq, Repr

structure InsertAllResult where
deriving DecidableEq, Repr

/-- Outcome of a contract-wrapped call: result, an allowed error, or a
contract violation (an error kind outside the allowed set, which the
enforcer treats as a programmer bug). -/
inductive ContractOutcome where
  | ok (res : InsertAllResult)
  | err (e : BackendError)
  | contractViolation
deriving DecidableEq, Repr

/-- Modelled from the spec: checkError for InsertAll accepts the
InsertDuplicateID kind and backend errors; anything else is a programmer
bug. -/
def checkInsertError : Except BackendError InsertAllResult → ContractOutcome
  | .ok res => .ok res
  | .error .insertDuplicateID => .err .insertDuplicateID
  | .error (.backend m) => .err (.backend m)
  | .error (.unexpected _) => .contractViolation

/-- collectionContract.InsertAll from src/internal/backends/collection.go:
freeze every input document, then invoke the underlying implementation on
those frozen documents and check the error kind.  The first component of
the result is the state of the input documents after the call (the Go code
freezes them in place through pointers). -/
def collectionContractInsertAll
    (impl : List Document → Except BackendError InsertAllResult)
    (params : InsertAllParams) : List Document × ContractOutcome :=
  let frozen := params.docs.map Document.freeze
  (frozen, checkInsertError (impl frozen))

/-! ## Sanity condition on the CmdQuery collaborator

The Go CmdQuery handler returns a reply and an error; handlers return a
response or an error, not both (a handler that returned both would make
conn.route write a zero-filled header on its early-return path).
-/

def cmdQueryOK (env : Env) : Prop :=
  ∀ q, ((env.cmdQuery q).2).isSome = true → (env.cmdQuery q).1 = none

/-! ## Concrete fixtures used by witnesses and counterexamples -/

def okDoc : Document := ⟨[("ok", .double 1)], false⟩
def okMsg : OpMsg := ⟨0, [.kind0 okDoc]⟩
def localOkDoc : Document := ⟨[("ok", .double 1), ("marker", .boolean true)], false⟩
def localOkMsg : OpMsg := ⟨0, [.kind0 localOkDoc]⟩
def pingDoc : Document := ⟨[("ping", .int32 1), ("$db", .str "admin")], false⟩
def pingMsg : OpMsg := ⟨0, [.kind0 pingDoc]⟩
def badDoc : Document := ⟨[("noSuchCmd", .int32 1), ("$db", .str "x")], false⟩
def badMsg : OpMsg := ⟨0, [.kind0 badDoc]⟩

def pingHandler : OpMsg → Option OpMsg × Option HErr := fun _ => (some okMsg, none)
def localPingHandler : OpMsg → Option OpMsg × Option HErr := fun _ => (some localOkMsg, none)
def testCommands : List (String × CommandRecord) := [("ping", ⟨some pingHandler⟩)]
def diffCommands : List (String × CommandRecord) := [("ping", ⟨some localPingHandler⟩)]

def reqH : MsgHeader := ⟨40, 11, 0, opCodeMsg⟩
def delH : MsgHeader := ⟨40, 5, 0, opCodeDelete⟩
def invH : MsgHeader := ⟨15, 3, 0, opCodeQuery⟩

def noQuery : OpQuery → Option OpReply × Option HErr :=
  fun _ => (none, some (.internal "unsupported"))

def proxyOkHeader : MsgHeader := ⟨30, 7, 11, opCodeMsg⟩
def stubProxy : MsgHeader → MsgBody → MsgHeader × MsgBody :=
  fun _ _ => (proxyOkHeader, .msg okMsg)

def envNormal : Env := ⟨Mode.normal, testCommands, noQuery, stubProxy⟩
def envProxy : Env := ⟨Mode.proxy, testCommands, noQuery, stubProxy⟩
def envDiffNormal : Env := ⟨Mode.diffNormal, testCommands, noQuery, stubProxy⟩
def envDiffCx : Env := ⟨Mode.diffNormal, diffCommands, noQuery, stubProxy⟩

/-- Diff log entries of an event list: level, local body, proxy body. -/
def diffEvents (evs : List Event) : List (Int × Option MsgBody × Option MsgBody) :=
  evs.filterMap fun e =>
    match e with
    | .diffLogged lvl _ rb _ pb => some (lvl, rb, pb)
    | _ => none

/-! ## Helper lemmas -/

theorem wrap32_add_left (a b : Int) : wrap32 (wrap32 a + b) = wrap32 (a + b) := by
  unfold wrap32; omega

theorem wrap32_eq_self {x : Int} (h1 : -2147483648 ≤ x) (h2 : x ≤ 2147483647) :
    wrap32 x = x := by
  unfold wrap32; omega

theorem writtenIds_append (a b : List Event) :
    writtenIds (a ++ b) = writtenIds a ++ writtenIds b := by
  simp [writtenIds]

theorem routeFinish_ok {reqHeader : MsgHeader} {lastID opc : Int} {ob : Option MsgBody}
    {rh : MsgHeader} {rb : Option MsgBody} {cc : Bool} {nl : Int} {evs : List Event}
    (h : routeFinish reqHeader lastID opc ob = .ok rh rb cc nl evs) :
    ∃ body, ob = some body ∧
      rh = ⟨msgHeaderLen + body.marshalBinary.length, wrap32 (lastID + 1),
            reqHeader.requestID, opc⟩ ∧
      rb = some body ∧ cc = false ∧ nl = wrap32 (lastID + 1) ∧ evs = [] := by
  cases ob with
  | none => simp [routeFinish] at h
  | some body =>
    simp only [routeFinish, RouteRes.ok.injEq] at h
    exact ⟨body, rfl, h.1.symm, h.2.1.symm, h.2.2.1.symm, h.2.2.2.1.symm, h.2.2.2.2.symm⟩

theorem route_cases (env : Env) (lastID : Int) (reqHeader : MsgHeader) (reqBody : MsgBody)
    (hq : cmdQueryOK env) :
    route env lastID reqHeader reqBody = .panicked ∨
    (∃ opc body,
      route env lastID reqHeader reqBody =
        .ok ⟨msgHeaderLen + body.marshalBinary.length, wrap32 (lastID + 1),
             reqHeader.requestID, opc⟩ (some body) false (wrap32 (lastID + 1)) []) ∨
    (∃ rh lbl, route env lastID reqHeader reqBody =
        .ok rh none true lastID [Event.handlerErrorLogged lbl]) := by
  unfold route
  split
  · cases reqBody with
    | msg m =>
      cases hdoc : m.document with
      | some doc =>
        simp only [hdoc]
        cases hh : handleOpMsg env m doc.command with
        | mk resMsg err =>
          cases err with
          | none =>
            cases resMsg with
            | none => exact Or.inl rfl
            | some rm => exact Or.inr (Or.inl ⟨opCodeMsg, .msg rm, rfl⟩)
          | some e => exact Or.inr (Or.inl ⟨opCodeMsg, .msg (errorMsg e), rfl⟩)
      | none =>
        simp only [hdoc]
        exact Or.inr (Or.inl ⟨opCodeMsg, _, rfl⟩)
    | query _ => exact Or.inl rfl
    | reply _ => exact Or.inl rfl
    | other _ => exact Or.inl rfl
  · split
    · cases reqBody with
      | query q =>
        cases hcq : env.cmdQuery q with
        | mk rr err =>
          simp only [hcq]
          cases err with
          | none =>
            cases rr with
            | none => exact Or.inl rfl
            | some r => exact Or.inr (Or.inl ⟨opCodeReply, .reply r, rfl⟩)
          | some e =>
            have hrr : rr = none := by
              have := hq q (by rw [hcq]; rfl)
              rwa [hcq] at this
            subst hrr
            exact Or.inr (Or.inr ⟨⟨0, 0, 0, opCodeReply⟩, _, rfl⟩)
      | msg _ => exact Or.inl rfl
      | reply _ => exact Or.inl rfl
      | other _ => exact Or.inl rfl
    · exact Or.inr (Or.inr ⟨⟨0, 0, 0, 0⟩, _, rfl⟩)

theorem run_nil (env : Env) (st : ConnState) : run env st [] = ([], .pending) := rfl

theorem run_cons_cont {env : Env} {st : ConnState} {ev : ReadEvent} {st2 : ConnState}
    {evs : List Event} {rest : List ReadEvent} (h : step env st ev = .cont st2 evs) :
    run env st (ev :: rest) = (evs ++ (run env st2 rest).1, (run env st2 rest).2) := by
  simp [run, h]

theorem run_cons_stop {env : Env} {st : ConnState} {ev : ReadEvent} {evs : List Event}
    {ex : ExitKind} {rest : List ReadEvent} (h : step env st ev = .stop evs ex) :
    run env st (ev :: rest) = (evs, ex) := by
  simp [run, h]

theorem step_written (env : Env)
    (hm : env.mode = Mode.normal ∨ env.mode = Mode.diffNormal)
    (hq : cmdQueryOK env) (st : ConnState) (ev : ReadEvent) :
    (∀ st2 evs, step env st ev = .cont st2 evs →
      st2 = ⟨wrap32 (st.lastRequestID + 1)⟩ ∧
      writtenIds evs = [wrap32 (st.lastRequestID + 1)]) ∧
    (∀ evs ex, step env st ev = .stop evs ex → writtenIds evs = []) := by
  cases ev with
  | eof =>
    refine ⟨fun st2 evs h => ?_, fun evs ex h => ?_⟩
    · simp [step] at h
    · simp only [step, StepRes.stop.injEq] at h
      rw [← h.1]
      rfl
  | ioError =>
    refine ⟨fun st2 evs h => ?_, fun evs ex h => ?_⟩
    · simp [step] at h
    · simp only [step, StepRes.stop.injEq] at h
      rw [← h.1]
      rfl
  | invalid reqHeader verr =>
    refine ⟨fun st2 evs h => ?_, fun evs ex h => ?_⟩
    · simp only [step, StepRes.cont.injEq] at h
      refine ⟨h.1.symm, ?_⟩
      rw [← h.2]
      rfl
    · simp [step] at h
  | msg reqHeader reqBody =>
    rcases route_cases env st.lastRequestID reqHeader reqBody hq with
      hr | ⟨opc, body, hr⟩ | ⟨rh0, lbl, hr⟩ <;>
      rcases hm with hmn | hmn <;>
      refine ⟨fun st2 evs h => ?_, fun evs ex h => ?_⟩ <;>
      simp only [step, hmn, reduceCtorEq, reduceIte, hr] at h <;>
      try exact StepRes.noConfusion h
    all_goals try (split at h <;> try exact StepRes.noConfusion h)
    all_goals try (split at h <;> try exact StepRes.noConfusion h)
    all_goals try simp only [writeRes, reduceIte] at h
    all_goals first
      | (obtain ⟨h1, h2⟩ := StepRes.cont.injEq .. |>.mp h
         refine ⟨h1.symm, ?_⟩
         rw [← h2]
         rfl)
      | (obtain ⟨h1, h2⟩ := StepRes.stop.injEq .. |>.mp h
         rw [← h1]
         rfl)

theorem run_ids (env : Env)
    (hm : env.mode = Mode.normal ∨ env.mode = Mode.diffNormal)
    (hq : cmdQueryOK env) :
    ∀ (inputs : List ReadEvent) (j : Int),
      ∃ n ≤ inputs.length,
        writtenIds (run env ⟨j⟩ inputs).1 =
          (List.range n).map (fun i : Nat => wrap32 (j + 1 + (i : Int))) := by
  intro inputs
  induction inputs with
  | nil =>
    intro j
    exact ⟨0, Nat.le_refl 0, by simp [run_nil, writtenIds]⟩
  | cons ev rest ih =>
    intro j
    cases hstep : step env ⟨j⟩ ev with
    | stop evs ex =>
      refine ⟨0, Nat.zero_le _, ?_⟩
      rw [run_cons_stop hstep]
      simp only [List.range_zero, List.map_nil]
      exact (step_written env hm hq ⟨j⟩ ev).2 evs ex hstep
    | cont st2 evs =>
      obtain ⟨hst2, hids⟩ := (step_written env hm hq ⟨j⟩ ev).1 st2 evs hstep
      subst hst2
      obtain ⟨n, hn, hrest⟩ := ih (wrap32 (j + 1))
      refine ⟨n + 1, Nat.succ_le_succ hn, ?_⟩
      rw [run_cons_cont hstep, writtenIds_append, hids, hrest,
        List.range_succ_eq_map, List.map_cons, List.map_map, List.singleton_append]
      congr 1
      · norm_num
      · apply List.map_congr_left
        intro i _
        simp only [Function.comp_apply]
        unfold wrap32
        push_cast
        omega

theorem route_ok_false {env : Env} {lastID : Int} {reqHeader : MsgHeader}
    {reqBody : MsgBody} {rh : MsgHeader} {rb : Option MsgBody} {nl : Int}
    {evs : List Event}
    (h : route env lastID reqHeader reqBody = RouteRes.ok rh rb false nl evs) :
    ∃ body, rb = some body ∧
      rh.messageLength = msgHeaderLen + body.marshalBinary.length ∧
      rh.requestID = wrap32 (lastID + 1) ∧
      rh.responseTo = reqHeader.requestID ∧
      nl = wrap32 (lastID + 1) ∧ evs = [] := by
  have finish : ∀ (opc : Int) (ob : Option MsgBody),
      routeFinish reqHeader lastID opc ob = RouteRes.ok rh rb false nl evs →
      ∃ body, rb = some body ∧
        rh.messageLength = msgHeaderLen + body.marshalBinary.length ∧
        rh.requestID = wrap32 (lastID + 1) ∧
        rh.responseTo = reqHeader.requestID ∧
        nl = wrap32 (lastID + 1) ∧ evs = [] := by
    intro opc ob hf
    obtain ⟨body, _, hrh, hrb, _, hnl, hevs⟩ := routeFinish_ok hf
    subst hrh
    exact ⟨body, hrb, rfl, rfl, rfl, hnl, hevs⟩
  unfold route at h
  split at h
  · cases reqBody with
    | msg m =>
      cases hdoc : m.document with
      | some doc =>
        simp only [hdoc] at h
        cases hh : handleOpMsg env m doc.command with
        | mk resMsg err =>
          simp only [hh] at h
          cases err with
          | none => exact finish _ _ h
          | some e => exact finish _ _ h
      | none =>
        simp only [hdoc] at h
        exact finish _ _ h
    | query q => exact RouteRes.noConfusion h
    | reply r => exact RouteRes.noConfusion h
    | other op => exact RouteRes.noConfusion h
  · split at h
    · cases reqBody with
      | query q =>
        cases hcq : env.cmdQuery q with
        | mk rr err =>
          simp only [hcq] at h
          cases err with
          | none => exact finish _ _ h
          | some e =>
            simp only [RouteRes.ok.injEq] at h
            exact Bool.noConfusion h.2.2.1
      | msg m => exact RouteRes.noConfusion h
      | reply r => exact RouteRes.noConfusion h
      | other op => exact RouteRes.noConfusion h
    · simp only [RouteRes.ok.injEq] at h
      exact Bool.noConfusion h.2.2.1

theorem step_invalid_eq (env : Env) (st : ConnState) (reqHeader : MsgHeader)
    (verr : String) :
    step env st (.invalid reqHeader verr) =
      .cont ⟨wrap32 (st.lastRequestID + 1)⟩
        [.wrote ⟨msgHeaderLen + ((MsgBody.msg (validationResponse verr)).marshalBinary).length,
                 wrap32 (st.lastRequestID + 1), reqHeader.requestID, reqHeader.opCode⟩
           (.msg (validationResponse verr))] := rfl

/-! ## The claims -/

/-- Claim C1: when a decode fails with a validation error, the runner does
not close the connection: it writes one OP_MSG response whose document is
derived from the validation error, keyed (via ResponseTo) to the offending
message request id, and then keeps running on the rest of the input, so the
next well-formed request is still processed. -/
theorem c1_validation_error_recovery (env : Env) (st : ConnState)
    (reqHeader : MsgHeader) (verr : String) (rest : List ReadEvent) :
    ∃ resHeader : MsgHeader,
      run env st (ReadEvent.invalid reqHeader verr :: rest) =
        (Event.wrote resHeader (MsgBody.msg (validationResponse verr)) ::
          (run env ⟨wrap32 (st.lastRequestID + 1)⟩ rest).1,
         (run env ⟨wrap32 (st.lastRequestID + 1)⟩ rest).2) ∧
      resHeader.responseTo = reqHeader.requestID ∧
      (validationResponse verr).document =
        some (errorDocument (HErr.validation verr)) ∧
      (errorDocument (HErr.validation verr)).get "ok" = some (.double 0) := by
  refine ⟨⟨msgHeaderLen + ((MsgBody.msg (validationResponse verr)).marshalBinary).length,
           wrap32 (st.lastRequestID + 1), reqHeader.requestID, reqHeader.opCode⟩,
    ?_, rfl, rfl, rfl⟩
  rw [run_cons_cont (step_invalid_eq env st reqHeader verr)]
  rfl

/-- Claim C2: every response header built by conn.route (that is, on its
non-fatal path, the one that returns a body with closeConn false) and every
validation-error response header built by conn.run carries
MessageLength equal to the header size plus the length of the marshalled
body. -/
theorem c2_response_message_length (env : Env) (lastID : Int)
    (reqHeader : MsgHeader) (reqBody : MsgBody) (rh : MsgHeader)
    (rb : Option MsgBody) (nl : Int) (evs : List Event)
    (st : ConnState) (verr : String)
    (hr : route env lastID reqHeader reqBody = RouteRes.ok rh rb false nl evs) :
    (∃ body, rb = some body ∧
      rh.messageLength = msgHeaderLen + body.marshalBinary.length) ∧
    ∃ st2 vh,
      step env st (ReadEvent.invalid reqHeader verr) =
        .cont st2 [Event.wrote vh (MsgBody.msg (validationResponse verr))] ∧
      vh.messageLength =
        msgHeaderLen + ((MsgBody.msg (validationResponse verr)).marshalBinary).length := by
  obtain ⟨body, hob, hlen, _, _, _, _⟩ := route_ok_false hr
  exact ⟨⟨body, hob, hlen⟩, _, _, step_invalid_eq env st reqHeader verr, rfl⟩

/-- Claim C3: every response header built by conn.route on its non-fatal
path, and every validation-error response header built by conn.run, carries
ResponseTo equal to the RequestID of the request that triggered it. -/
theorem c3_response_to_matches_request (env : Env) (lastID : Int)
    (reqHeader : MsgHeader) (reqBody : MsgBody) (rh : MsgHeader)
    (rb : Option MsgBody) (nl : Int) (evs : List Event)
    (st : ConnState) (verr : String)
    (hr : route env lastID reqHeader reqBody = RouteRes.ok rh rb false nl evs) :
    rh.responseTo = reqHeader.requestID ∧
    ∃ st2 vh,
      step env st (ReadEvent.invalid reqHeader verr) =
        .cont st2 [Event.wrote vh (MsgBody.msg (validationResponse verr))] ∧
      vh.responseTo = reqHeader.requestID := by
  obtain ⟨body, _, _, _, hrto, _, _⟩ := route_ok_false hr
  exact ⟨hrto, _, _, step_invalid_eq env st reqHeader verr, rfl⟩

theorem c2_response_message_length_witness :
    route envNormal 0 reqH (MsgBody.msg pingMsg) =
      RouteRes.ok ⟨msgHeaderLen + (MsgBody.msg okMsg).marshalBinary.length, 1, 11, opCodeMsg⟩
        (some (MsgBody.msg okMsg)) false 1 [] ∧
    ((∃ body, (some (MsgBody.msg okMsg) : Option MsgBody) = some body ∧
       (MsgHeader.mk (msgHeaderLen + (MsgBody.msg okMsg).marshalBinary.length)
           1 11 opCodeMsg).messageLength =
         msgHeaderLen + body.marshalBinary.length) ∧
     ∃ st2 vh,
       step envNormal ⟨0⟩ (ReadEvent.invalid reqH "bad") =
         .cont st2 [Event.wrote vh (MsgBody.msg (validationResponse "bad"))] ∧
       vh.messageLength =
         msgHeaderLen + ((MsgBody.msg (validationResponse "bad")).marshalBinary).length) :=
  ⟨by decide,
   c2_response_message_length envNormal 0 reqH (MsgBody.msg pingMsg)
     ⟨msgHeaderLen + (MsgBody.msg okMsg).marshalBinary.length, 1, 11, opCodeMsg⟩
     (some (MsgBody.msg okMsg)) 1 [] ⟨0⟩ "bad" (by decide)⟩

theorem c3_response_to_matches_request_witness :
    route envNormal 0 reqH (MsgBody.msg pingMsg) =
      RouteRes.ok ⟨msgHeaderLen + (MsgBody.msg okMsg).marshalBinary.length, 1, 11, opCodeMsg⟩
        (some (MsgBody.msg okMsg)) false 1 [] ∧
    ((MsgHeader.mk (msgHeaderLen + (MsgBody.msg okMsg).marshalBinary.length)
        1 11 opCodeMsg).responseTo = reqH.requestID ∧
     ∃ st2 vh,
       step envNormal ⟨0⟩ (ReadEvent.invalid reqH "bad") =
         .cont st2 [Event.wrote vh (MsgBody.msg (validationResponse "bad"))] ∧
       vh.responseTo = reqH.requestID) :=
  ⟨by decide,
   c3_response_to_matches_request envNormal 0 reqH (MsgBody.msg pingMsg)
     ⟨msgHeaderLen + (MsgBody.msg okMsg).marshalBinary.length, 1, 11, opCodeMsg⟩
     (some (MsgBody.msg okMsg)) 1 [] ⟨0⟩ "bad" (by decide)⟩

/-- Claim C10: the response frame that conn.run synthesizes for a decode
validation error copies its opcode from the request header (rather than
fixing it to OP_MSG) while the body is always an OP_MSG; in particular, a
malformed OP_QUERY message is answered with a frame whose opcode is
OP_QUERY and whose body is an OP_MSG. -/
theorem c10_validation_response_opcode (env : Env) (st : ConnState)
    (reqHeader : MsgHeader) (verr : String) :
    ∃ st2 resHeader,
      step env st (ReadEvent.invalid reqHeader verr) =
        .cont st2 [Event.wrote resHeader (MsgBody.msg (validationResponse verr))] ∧
      resHeader.opCode = reqHeader.opCode ∧
      (reqHeader.opCode = opCodeQuery → resHeader.opCode = opCodeQuery) :=
  ⟨_, _, step_invalid_eq env st reqHeader verr, rfl, fun h => h⟩

/-- Claim C4, counterexample: the claim that response RequestID values are
always drawn from the per-connection counter, with the first response
carrying id 1, fails in proxy mode: there the written frame carries the
header produced by the upstream proxy.  With a proxy that answers with
request id 7, the first response written on a fresh connection has id 7,
not 1. -/
theorem c4_counterexample_proxy_mode_ids :
    writtenIds (run envProxy ⟨0⟩ [ReadEvent.msg reqH (MsgBody.msg pingMsg)]).1 = [7] ∧
    ¬ writtenIds (run envProxy ⟨0⟩ [ReadEvent.msg reqH (MsgBody.msg pingMsg)]).1 = [1] :=
  ⟨by decide, by decide⟩

/-- Claim C4, amended: in normal and diff-normal modes (the modes in which
the written responses are the ones conn.route builds from the
per-connection counter), and as long as at most 2147483647 messages arrive
on the connection (so that the atomic int32 counter cannot wrap), the
request ids stamped on successive responses are exactly 1, 2, 3, ...:
strictly increasing, unique, starting at 1, with the validation-error path
and the normal path incrementing the same counter. -/
theorem c4_request_ids_amended (env : Env) (inputs : List ReadEvent)
    (hm : env.mode = Mode.normal ∨ env.mode = Mode.diffNormal)
    (hq : cmdQueryOK env)
    (hlen : inputs.length ≤ 2147483647) :
    ∃ n ≤ inputs.length,
      writtenIds (run env ⟨0⟩ inputs).1 =
        (List.range n).map (fun i : Nat => (i : Int) + 1) ∧
      (writtenIds (run env ⟨0⟩ inputs).1).Pairwise (· < ·) ∧
      (writtenIds (run env ⟨0⟩ inputs).1).Nodup ∧
      (0 < n → (writtenIds (run env ⟨0⟩ inputs).1).head? = some 1) := by
  obtain ⟨n, hn, hids⟩ := run_ids env hm hq inputs 0
  have hids2 : writtenIds (run env ⟨0⟩ inputs).1 =
      (List.range n).map (fun i : Nat => (i : Int) + 1) := by
    rw [hids]
    apply List.map_congr_left
    intro i hi
    have hi2 : i < n := List.mem_range.mp hi
    rw [wrap32_eq_self] <;> omega
  have hpair : (writtenIds (run env ⟨0⟩ inputs).1).Pairwise (· < ·) := by
    rw [hids2, List.pairwise_map]
    exact (List.pairwise_lt_range n).imp (by intro a b hab; omega)
  refine ⟨n, hn, hids2, hpair, hpair.imp ne_of_lt, ?_⟩
  intro hpos
  rw [hids2]
  cases n with
  | zero => omega
  | succ k => rw [List.range_succ_eq_map]; rfl

theorem c4_request_ids_amended_witness :
    (envNormal.mode = Mode.normal ∨ envNormal.mode = Mode.diffNormal) ∧
    cmdQueryOK envNormal ∧
    ([ReadEvent.invalid invH "bad", ReadEvent.msg reqH (MsgBody.msg pingMsg)] :
      List ReadEvent).length ≤ 2147483647 ∧
    ∃ n ≤ ([ReadEvent.invalid invH "bad",
            ReadEvent.msg reqH (MsgBody.msg pingMsg)] : List ReadEvent).length,
      writtenIds (run envNormal ⟨0⟩
          [ReadEvent.invalid invH "bad", ReadEvent.msg reqH (MsgBody.msg pingMsg)]).1 =
        (List.range n).map (fun i : Nat => (i : Int) + 1) ∧
      (writtenIds (run envNormal ⟨0⟩
          [ReadEvent.invalid invH "bad", ReadEvent.msg reqH (MsgBody.msg pingMsg)]).1).Pairwise (· < ·) ∧
      (writtenIds (run envNormal ⟨0⟩
          [ReadEvent.invalid invH "bad", ReadEvent.msg reqH (MsgBody.msg pingMsg)]).1).Nodup ∧
      (0 < n → (writtenIds (run envNormal ⟨0⟩
          [ReadEvent.invalid invH "bad", ReadEvent.msg reqH (MsgBody.msg pingMsg)]).1).head? = some 1) :=
  ⟨Or.inl rfl, fun _ _ => rfl, by decide,
   c4_request_ids_amended envNormal
     [ReadEvent.invalid invH "bad", ReadEvent.msg reqH (MsgBody.msg pingMsg)]
     (Or.inl rfl) (fun _ _ => rfl) (by decide)⟩

/-- Claim C5: in every mode other than normal, an iteration over a
successfully decoded request dispatches the request to the upstream proxy
(and captures its response) as its very first observable action, before the
local handler is ever invoked, so no handled event can come first. -/
theorem c5_proxy_before_handler (env : Env) (st : ConnState)
    (reqHeader : MsgHeader) (reqBody : MsgBody)
    (hm : env.mode ≠ Mode.normal) :
    ∃ tl, stepEvents (step env st (.msg reqHeader reqBody)) =
        Event.proxied reqHeader :: tl ∧
      ∀ i h2, (stepEvents (step env st (.msg reqHeader reqBody))).get? i =
          some (Event.handled h2) → 0 < i := by
  have hhead : ∃ tl, stepEvents (step env st (.msg reqHeader reqBody)) =
      Event.proxied reqHeader :: tl := by
    cases henv : env.mode with
    | normal => exact absurd henv hm
    | proxy =>
      simp only [step, henv, reduceCtorEq, reduceIte]
      split
      · exact ⟨_, rfl⟩
      · exact ⟨_, rfl⟩
    | diffNormal =>
      simp only [step, henv, reduceCtorEq, reduceIte]
      split
      · exact ⟨_, rfl⟩
      · split
        · exact ⟨_, rfl⟩
        · split
          · exact ⟨_, rfl⟩
          · unfold writeRes
            split
            · exact ⟨_, rfl⟩
            · split
              · exact ⟨_, rfl⟩
              · exact ⟨_, rfl⟩
    | diffProxy =>
      simp only [step, henv, reduceCtorEq, reduceIte]
      split
      · exact ⟨_, rfl⟩
      · split
        · exact ⟨_, rfl⟩
        · split
          · exact ⟨_, rfl⟩
          · unfold writeRes
            split
            · exact ⟨_, rfl⟩
            · split
              · exact ⟨_, rfl⟩
              · exact ⟨_, rfl⟩
  obtain ⟨tl, htl⟩ := hhead
  refine ⟨tl, htl, ?_⟩
  intro i h2 hi
  cases i with
  | zero =>
    rw [htl] at hi
    simp at hi
  | succ k => exact Nat.succ_pos k

theorem c5_proxy_before_handler_witness :
    envDiffNormal.mode ≠ Mode.normal ∧
    ∃ tl, stepEvents (step envDiffNormal ⟨0⟩ (.msg reqH (MsgBody.msg pingMsg))) =
        Event.proxied reqH :: tl ∧
      ∀ i h2, (stepEvents (step envDiffNormal ⟨0⟩ (.msg reqH (MsgBody.msg pingMsg)))).get? i =
          some (Event.handled h2) → 0 < i :=
  ⟨by decide, c5_proxy_before_handler envDiffNormal ⟨0⟩ reqH (MsgBody.msg pingMsg) (by decide)⟩

/-- Claim C6, counterexample: in diff-normal mode with a local response and
a proxy response that both carry ok 1.0 but are different documents (they
disagree), the diff is logged at the Info level (the zero value of
zapcore.Level that initializes diffLogLevel), not at the Warning level the
claim requires; so agreement and disagreement do not determine the diff log
level.  The local response is the one written, as the claim says. -/
theorem c6_counterexample_info_on_disagreement :
    diffEvents (stepEvents (step envDiffCx ⟨0⟩ (ReadEvent.msg reqH (MsgBody.msg pingMsg)))) =
      [(infoLevel, some (MsgBody.msg localOkMsg), some (MsgBody.msg okMsg))] ∧
    ¬ (MsgBody.msg localOkMsg) = (MsgBody.msg okMsg) ∧
    ¬ infoLevel = warnLevel ∧
    writtenFrames (stepEvents (step envDiffCx ⟨0⟩ (ReadEvent.msg reqH (MsgBody.msg pingMsg)))) =
      [(⟨msgHeaderLen + (MsgBody.msg localOkMsg).marshalBinary.length, 1, 11, opCodeMsg⟩,
        MsgBody.msg localOkMsg)] :=
  ⟨by decide, by decide, by decide, by decide⟩

/-- Claim C6, amended: in diff-normal mode the client always receives the
local handler response, and the unified diff is logged at the maximum of
the Info level (the zero value of zapcore.Level) and the levels at which
the two responses were logged - a level that depends only on the ok fields
of the responses and the close flag, not on whether the responses agree. -/
theorem c6_diff_level_amended (env : Env) (st : ConnState)
    (reqHeader : MsgHeader) (reqBody : MsgBody) (rh : MsgHeader) (body : MsgBody)
    (nl : Int) (l1 l2 : Int)
    (hm : env.mode = Mode.diffNormal)
    (hr : route env st.lastRequestID reqHeader reqBody =
      RouteRes.ok rh (some body) false nl [])
    (hl1 : logResponseLevel rh (some body) false = some l1)
    (hl2 : logResponseLevel (env.proxyRoute reqHeader reqBody).1
        (some (env.proxyRoute reqHeader reqBody).2) false = some l2) :
    step env st (.msg reqHeader reqBody) =
      .cont ⟨nl⟩
        [Event.proxied reqHeader, Event.handled reqHeader,
         Event.responseLogged "Response" l1,
         Event.responseLogged "Proxy response" l2,
         Event.diffLogged (bump (bump 0 l1) l2) rh (some body)
           (env.proxyRoute reqHeader reqBody).1
           (some (env.proxyRoute reqHeader reqBody).2),
         Event.wrote rh body] := by
  simp only [step, hm, reduceCtorEq, reduceIte, hr, hl1, hl2]
  rfl

theorem c6_diff_level_amended_witness :
    envDiffCx.mode = Mode.diffNormal ∧
    route envDiffCx 0 reqH (MsgBody.msg pingMsg) =
      RouteRes.ok ⟨msgHeaderLen + (MsgBody.msg localOkMsg).marshalBinary.length, 1, 11, opCodeMsg⟩
        (some (MsgBody.msg localOkMsg)) false 1 [] ∧
    logResponseLevel ⟨msgHeaderLen + (MsgBody.msg localOkMsg).marshalBinary.length, 1, 11, opCodeMsg⟩
        (some (MsgBody.msg localOkMsg)) false = some debugLevel ∧
    logResponseLevel (envDiffCx.proxyRoute reqH (MsgBody.msg pingMsg)).1
        (some (envDiffCx.proxyRoute reqH (MsgBody.msg pingMsg)).2) false = some debugLevel ∧
    step envDiffCx ⟨0⟩ (.msg reqH (MsgBody.msg pingMsg)) =
      .cont ⟨1⟩
        [Event.proxied reqH, Event.handled reqH,
         Event.responseLogged "Response" debugLevel,
         Event.responseLogged "Proxy response" debugLevel,
         Event.diffLogged (bump (bump 0 debugLevel) debugLevel)
           ⟨msgHeaderLen + (MsgBody.msg localOkMsg).marshalBinary.length, 1, 11, opCodeMsg⟩
           (some (MsgBody.msg localOkMsg))
           (envDiffCx.proxyRoute reqH (MsgBody.msg pingMsg)).1
           (some (envDiffCx.proxyRoute reqH (MsgBody.msg pingMsg)).2),
         Event.wrote ⟨msgHeaderLen + (MsgBody.msg localOkMsg).marshalBinary.length, 1, 11, opCodeMsg⟩
           (MsgBody.msg localOkMsg)] :=
  ⟨rfl, by decide, by decide, by decide,
   c6_diff_level_amended envDiffCx ⟨0⟩ reqH (MsgBody.msg pingMsg)
     ⟨msgHeaderLen + (MsgBody.msg localOkMsg).marshalBinary.length, 1, 11, opCodeMsg⟩
     (MsgBody.msg localOkMsg) 1 debugLevel debugLevel rfl
     (by decide) (by decide) (by decide)⟩

/-- Claim C7: in normal mode, a message carrying any of the eight legacy
opcodes makes conn.route log a handler error and return no body with the
close flag set; conn.run then writes no response frame for that message and
terminates the connection at the end of the iteration (via the
no-response-to-send panic, recovered into a terminal error), processing no
further input. -/
theorem c7_legacy_opcode_fatal (env : Env) (st : ConnState)
    (reqHeader : MsgHeader) (reqBody : MsgBody) (rest : List ReadEvent)
    (hm : env.mode = Mode.normal)
    (hop : reqHeader.opCode ∈ legacyOpCodes) :
    ∃ evs, run env st (.msg reqHeader reqBody :: rest) = (evs, ExitKind.panicked) ∧
      writtenFrames evs = [] ∧
      Event.handlerErrorLogged "Handler error for unexpected response opcode" ∈ evs := by
  have hne : reqHeader.opCode ≠ opCodeMsg ∧ reqHeader.opCode ≠ opCodeQuery := by
    simp only [legacyOpCodes, List.mem_cons, List.not_mem_nil, or_false] at hop
    rcases hop with h | h | h | h | h | h | h | h <;> rw [h] <;>
      exact ⟨by decide, by decide⟩
  have hroute : route env st.lastRequestID reqHeader reqBody =
      .ok ⟨0, 0, 0, 0⟩ none true st.lastRequestID
        [.handlerErrorLogged "Handler error for unexpected response opcode"] := by
    unfold route
    rw [if_neg hne.1, if_neg hne.2]
  have hstep : step env st (.msg reqHeader reqBody) =
      .stop [Event.handled reqHeader,
             Event.handlerErrorLogged "Handler error for unexpected response opcode",
             Event.responseLogged "Response" debugLevel] ExitKind.panicked := by
    simp only [step, hm, reduceCtorEq, reduceIte, hroute]
    rfl
  exact ⟨_, run_cons_stop hstep, rfl, by simp⟩

theorem c7_legacy_opcode_fatal_witness :
    envNormal.mode = Mode.normal ∧ delH.opCode ∈ legacyOpCodes ∧
    ∃ evs, run envNormal ⟨0⟩ (.msg delH (MsgBody.other opCodeDelete) :: []) =
        (evs, ExitKind.panicked) ∧
      writtenFrames evs = [] ∧
      Event.handlerErrorLogged "Handler error for unexpected response opcode" ∈ evs :=
  ⟨rfl, by decide,
   c7_legacy_opcode_fatal envNormal ⟨0⟩ delH (MsgBody.other opCodeDelete) [] rfl (by decide)⟩

/-- Claim C8: in normal mode, an OP_MSG request whose command name has no
entry in the (case-sensitive) command registry is answered with an OP_MSG
response whose document has ok 0.0, code 59, codeName CommandNotFound, and
an errmsg built from the text no such command followed by the quoted name;
the iteration continues (the connection stays open) and the rest of the
input is processed as usual. -/
theorem c8_unknown_command (env : Env) (st : ConnState) (reqHeader : MsgHeader)
    (m : OpMsg) (doc : Document) (rest : List ReadEvent)
    (hm : env.mode = Mode.normal)
    (hopc : reqHeader.opCode = opCodeMsg)
    (hdoc : m.document = some doc)
    (hcmd : env.commands.lookup doc.command = none) :
    ∃ rh,
      step env st (.msg reqHeader (MsgBody.msg m)) =
        .cont ⟨wrap32 (st.lastRequestID + 1)⟩
          [Event.handled reqHeader, Event.responseLogged "Response" warnLevel,
           Event.wrote rh (MsgBody.msg (errorMsg (commandNotFound doc.command)))] ∧
      rh.responseTo = reqHeader.requestID ∧
      rh.opCode = opCodeMsg ∧
      (errorDocument (commandNotFound doc.command)).get "ok" = some (.double 0) ∧
      (errorDocument (commandNotFound doc.command)).get "code" = some (.int32 59) ∧
      (errorDocument (commandNotFound doc.command)).get "codeName" =
        some (.str "CommandNotFound") ∧
      (errorDocument (commandNotFound doc.command)).get "errmsg" =
        some (.str ("no such command: " ++ squote ++ doc.command ++ squote)) ∧
      run env st (.msg reqHeader (MsgBody.msg m) :: rest) =
        (stepEvents (step env st (.msg reqHeader (MsgBody.msg m))) ++
          (run env ⟨wrap32 (st.lastRequestID + 1)⟩ rest).1,
         (run env ⟨wrap32 (st.lastRequestID + 1)⟩ rest).2) := by
  have hroute : route env st.lastRequestID reqHeader (MsgBody.msg m) =
      .ok ⟨msgHeaderLen +
            ((MsgBody.msg (errorMsg (commandNotFound doc.command))).marshalBinary).length,
           wrap32 (st.lastRequestID + 1), reqHeader.requestID, opCodeMsg⟩
        (some (MsgBody.msg (errorMsg (commandNotFound doc.command)))) false
        (wrap32 (st.lastRequestID + 1)) [] := by
    unfold route
    rw [if_pos hopc]
    simp only [hdoc, handleOpMsg, hcmd]
    rfl
  have hstep : step env st (.msg reqHeader (MsgBody.msg m)) =
      .cont ⟨wrap32 (st.lastRequestID + 1)⟩
        [Event.handled reqHeader, Event.responseLogged "Response" warnLevel,
         Event.wrote ⟨msgHeaderLen +
             ((MsgBody.msg (errorMsg (commandNotFound doc.command))).marshalBinary).length,
           wrap32 (st.lastRequestID + 1), reqHeader.requestID, opCodeMsg⟩
           (MsgBody.msg (errorMsg (commandNotFound doc.command)))] := by
    simp only [step, hm, reduceCtorEq, reduceIte, hroute]
    rfl
  refine ⟨_, hstep, rfl, rfl, rfl, rfl, rfl, rfl, ?_⟩
  rw [run_cons_cont hstep, hstep]
  rfl

theorem c8_unknown_command_witness :
    envNormal.mode = Mode.normal ∧ reqH.opCode = opCodeMsg ∧
    badMsg.document = some badDoc ∧
    envNormal.commands.lookup badDoc.command = none ∧
    (∃ t, "no such command: " ++ squote ++ badDoc.command ++ squote =
      "no such command" ++ t) ∧
    ∃ rh,
      step envNormal ⟨0⟩ (.msg reqH (MsgBody.msg badMsg)) =
        .cont ⟨wrap32 (0 + 1)⟩
          [Event.handled reqH, Event.responseLogged "Response" warnLevel,
           Event.wrote rh (MsgBody.msg (errorMsg (commandNotFound badDoc.command)))] ∧
      rh.responseTo = reqH.requestID ∧
      rh.opCode = opCodeMsg ∧
      (errorDocument (commandNotFound badDoc.command)).get "ok" = some (.double 0) ∧
      (errorDocument (commandNotFound badDoc.command)).get "code" = some (.int32 59) ∧
      (errorDocument (commandNotFound badDoc.command)).get "codeName" =
        some (.str "CommandNotFound") ∧
      (errorDocument (commandNotFound badDoc.command)).get "errmsg" =
        some (.str ("no such command: " ++ squote ++ badDoc.command ++ squote)) ∧
      run envNormal ⟨0⟩ (.msg reqH (MsgBody.msg badMsg) :: []) =
        (stepEvents (step envNormal ⟨0⟩ (.msg reqH (MsgBody.msg badMsg))) ++
          (run envNormal ⟨wrap32 (0 + 1)⟩ []).1,
         (run envNormal ⟨wrap32 (0 + 1)⟩ []).2) :=
  ⟨rfl, rfl, rfl, rfl, ⟨": " ++ squote ++ badDoc.command ++ squote, rfl⟩,
   c8_unknown_command envNormal ⟨0⟩ reqH badMsg badDoc [] rfl rfl rfl rfl⟩

/-- Claim C9: the contract-wrapped InsertAll freezes every document of the
input slice before the underlying backend implementation is invoked (the
implementation is applied exactly to the frozen list), and therefore every
input document is frozen after the call returns, whatever the outcome of
the backend call (success, allowed error, or contract violation). -/
theorem c9_insert_all_freezes
    (impl : List Document → Except BackendError InsertAllResult)
    (params : InsertAllParams) :
    collectionContractInsertAll impl params =
      (params.docs.map Document.freeze,
       checkInsertError (impl (params.docs.map Document.freeze))) ∧
    ((collectionContractInsertAll impl params).1.all fun d => d.frozen) = true := by
  refine ⟨rfl, ?_⟩
  show ((params.docs.map Document.freeze).all fun d => d.frozen) = true
  rw [List.all_map]
  simp [Document.freeze, Function.comp]

end FerretDB
